import Mathlib

set_option maxRecDepth 16384

/-!
Verification development for the OmniFlow JSON engine.

The repository contains two implementations of the engine:
* `plugins/c/vendor/cJSON/cJSON.c` — a tagged-union / linked-list variant,
  modelled below in namespace `CJson`;
* `plugins/cpp/third_party/nlohmann/json.hpp` — a tagged-variant / map
  variant, modelled below in namespace `Nlohmann`.

Modelling conventions:
* Raw text is a `List Nat` of byte values.  For the C variant the end of the
  list models the NUL terminator (C strings cannot contain byte 0, so inputs
  are implicitly NUL-free there).
* IEEE-754 doubles are abstracted by `FDouble`: an exact rational
  (numerator / positive denominator, not necessarily reduced) or one of the
  non-finite values NaN / +Inf / -Inf.  No claim in this development depends
  on binary rounding of finite values, only on exact decimal values and on
  finiteness, which the abstraction preserves.
* Allocation never fails in the model (the allocation hooks are out of scope).
-/

/-- The whitespace set stated by the specification (§4.1): space, tab,
carriage return, line feed. -/
def specWhitespace : List Nat := [32, 9, 13, 10]

/-- C locale `isspace`: space, \t, \n, \v, \f, \r (used by `std::isspace`
in json.hpp and by `strtod`). -/
def isspaceB (b : Nat) : Bool :=
  b == 32 || b == 9 || b == 10 || b == 11 || b == 12 || b == 13

/-- ASCII decimal digit test. -/
def isDigitB (b : Nat) : Bool := decide (48 ≤ b ∧ b ≤ 57)

/-- Value of a hexadecimal digit byte, case-insensitive (`0-9`, `A-F`, `a-f`),
exactly the three-way comparison chain both sources use in their `\u` escape
decoders. -/
def hexVal (c : Nat) : Option Nat :=
  if 48 ≤ c ∧ c ≤ 57 then some (c - 48)
  else if 65 ≤ c ∧ c ≤ 70 then some (10 + c - 65)
  else if 97 ≤ c ∧ c ≤ 102 then some (10 + c - 97)
  else none

/-- UTF-8 encoding of a BMP code point, exactly the three branches both
sources use (`≤ 0x7F` one byte, `≤ 0x7FF` two bytes, else three bytes).
The bit operations `0xC0 | ((cp >> 6) & 0x1F)` etc. are written
arithmetically: for a code point below 0x10000 the OR-ed bit ranges are
disjoint, so OR is addition and shift/mask is division/remainder. -/
def utf8Encode (cp : Nat) : List Nat :=
  if cp ≤ 0x7F then [cp]
  else if cp ≤ 0x7FF then [192 + cp / 64 % 32, 128 + cp % 64]
  else [224 + cp / 4096 % 16, 128 + cp / 64 % 32, 128 + cp % 64]

/-- Decimal value of a digit-byte list (most significant first). -/
def digitsVal (ds : List Nat) : Nat := ds.foldl (fun a d => a * 10 + (d - 48)) 0

/-- Hexadecimal value of a hex-digit-byte list (most significant first). -/
def hexDigitsVal (ds : List Nat) : Nat :=
  ds.foldl (fun a d => a * 16 + (hexVal d).getD 0) 0

/-- Byte list of a string literal (all literals used here are ASCII). -/
def strBytes (s : String) : List Nat := s.data.map Char.toNat

/-- Abstraction of an IEEE-754 binary64 value: an exact rational
`num / den` (with `den > 0` for every value constructed here), or one of
the non-finite values. -/
inductive FDouble where
  | finite (num : Int) (den : Nat)
  | nan
  | posInf
  | negInf
deriving DecidableEq

/-- C `==` on doubles: NaN compares unequal to everything (itself included);
finite values compare by exact value (cross multiplication, valid since
denominators are positive). -/
def FDouble.feq : FDouble → FDouble → Bool
  | .finite a b, .finite c d => a * (d : Int) == c * (b : Int)
  | .posInf, .posInf => true
  | .negInf, .negInf => true
  | _, _ => false

def FDouble.isFinite : FDouble → Bool
  | .finite _ _ => true
  | _ => false

def FDouble.fneg : FDouble → FDouble
  | .finite n d => .finite (-n) d
  | .nan => .nan
  | .posInf => .negInf
  | .negInf => .posInf

/-- `(double)` of a C `int`: always exact. -/
def FDouble.ofInt (i : Int) : FDouble := .finite i 1

/-- `(int)` cast of a double: truncation toward zero.  The cast is undefined
behaviour in C for non-finite or out-of-range values; the model returns 0
there.  The chosen value never affects any observable result proved below,
because the only consumer compares `valuedouble == (double)valueint`, which
is false for every non-finite `valuedouble` regardless of `valueint`. -/
def FDouble.truncInt : FDouble → Int
  | .finite n d => if n.natAbs / d < 2 ^ 31 then n.tdiv (d : Int) else 0
  | _ => 0

/-- Smallest positive magnitude that rounds to +Inf in binary64
(the round-to-nearest overflow threshold). -/
def dblOvf : Nat := 2 ^ 1024 - 2 ^ 970

/-- Build a finite double from an exact rational, overflowing to ±Inf the
way `strtod` does (which returns ±HUGE_VAL on overflow). -/
def FDouble.mkFin (n : Int) (d : Nat) : FDouble :=
  if dblOvf * d ≤ n.natAbs then (if n < 0 then .negInf else .posInf)
  else .finite n d

/-! ### Model of `%.{15}g` formatting (C17 7.21.6.1p8, glibc behaviour)

Used by `snprintf(buf, _, "%.*g", 15, d)` in cJSON.c and by
`ostringstream` with `precision(digits10) = 15` in json.hpp (default
floatfield formatting is `%g`-equivalent).  The value formatted is the exact
rational carried by `FDouble`; rounding to 15 significant digits is
round-half-even.  Non-finite values print as glibc prints them
("nan", "inf", "-inf"). -/

/-- Decimal digit bytes of a natural number, most significant first. -/
def natDigits (n : Nat) : List Nat := (Nat.toDigits 10 n).map Char.toNat

/-- Number of decimal digits of a natural number (1 for 0). -/
def numDigits (n : Nat) : Nat := (Nat.toDigits 10 n).length

/-- `snprintf("%d", i)`. -/
def intToDecimal (i : Int) : List Nat :=
  if i < 0 then 45 :: natDigits i.natAbs else natDigits i.natAbs

/-- Round `n / d` to the nearest integer, ties to even (`d ≠ 0`). -/
def roundHalfEven (n d : Nat) : Nat :=
  let t := n / d
  let r := n % d
  if 2 * r < d then t
  else if d < 2 * r then t + 1
  else if t % 2 = 0 then t else t + 1

/-- Decimal exponent `X` with `10^X ≤ n/d < 10^(X+1)`, for `n, d > 0`. -/
def decExp (n d : Nat) : Int :=
  if d ≤ n then (numDigits (n / d) : Int) - 1
  else
    let k := (((List.range (numDigits d + 2)).find?
      (fun j => decide (d ≤ n * 10 ^ (j + 1)))).getD 0) + 1
    Int.negOfNat k

/-- Drop trailing `'0'` digits (the `%g` style removes them). -/
def stripTrailZeros (ds : List Nat) : List Nat :=
  (ds.reverse.dropWhile (fun b => b == 48)).reverse

/-- Lay out significant digits `sig` with decimal exponent `X` in `%g` style
with precision 15: scientific iff `X < -4 ∨ 15 ≤ X`, exponent printed with a
sign and at least two digits. -/
def gLayout (neg : Bool) (sig : List Nat) (X : Int) : List Nat :=
  let body :=
    if X < -4 ∨ 15 ≤ X then
      let eds := natDigits X.natAbs
      let eds := if eds.length < 2 then 48 :: eds else eds
      (sig.take 1 ++ (if sig.length ≤ 1 then [] else 46 :: sig.drop 1))
        ++ 101 :: (if X < 0 then 45 else 43) :: eds
    else if 0 ≤ X then
      let ip := X.toNat + 1
      if sig.length ≤ ip then sig ++ List.replicate (ip - sig.length) 48
      else sig.take ip ++ 46 :: sig.drop ip
    else
      48 :: 46 :: (List.replicate ((-X).toNat - 1) 48 ++ sig)
  if neg then 45 :: body else body

/-- `%.15g` of the exact rational `num / den` (`den > 0`). -/
def gFormatRat (num : Int) (den : Nat) : List Nat :=
  if num = 0 then [48]
  else
    let n := num.natAbs
    let X := decExp n den
    let e : Int := 14 - X
    let m0 := if 0 ≤ e then roundHalfEven (n * 10 ^ e.toNat) den
              else roundHalfEven n (den * 10 ^ (-e).toNat)
    let mX := if m0 = 10 ^ 15 then (10 ^ 14, X + 1) else (m0, X)
    gLayout (decide (num < 0)) (stripTrailZeros (natDigits mX.1)) mX.2

/-- Lowercase hex digit byte, as produced by `sprintf("\\u%04x", c)` in
both serializers. -/
def hexLower (n : Nat) : Nat := if n < 10 then 48 + n else 87 + n

/-- `%.15g` of a double; glibc prints non-finite values as shown. -/
def g15 : FDouble → List Nat
  | .finite n d => gFormatRat n d
  | .nan => [110, 97, 110]
  | .posInf => [105, 110, 102]
  | .negInf => [45, 105, 110, 102]

/-! ## Model of `plugins/c/vendor/cJSON/cJSON.c` -/

namespace CJson

/-! The `cJSON` node.  `next`/`prev`/`child` of the C struct are modelled by
giving each node the list of its children (`NodeList`); `type` is the C
`int` flag field; `name` models the C field `string` (the member name when
the node sits in an object).  `cJSON_New_Item` zeroes the struct, so the
default field values are `0` / `none` / `.nil` / `+0.0`. -/
mutual
inductive Node where
  | mk (type : Nat) (valuestring : Option (List Nat)) (valueint : Int)
       (valuedouble : FDouble) (name : Option (List Nat)) (children : NodeList)
inductive NodeList where
  | nil
  | cons (hd : Node) (tl : NodeList)
end

def Node.type : Node → Nat
  | .mk t _ _ _ _ _ => t

def Node.valuestring : Node → Option (List Nat)
  | .mk _ v _ _ _ _ => v

def Node.valueint : Node → Int
  | .mk _ _ v _ _ _ => v

def Node.valuedouble : Node → FDouble
  | .mk _ _ _ v _ _ => v

/-- The C field `string`: the item's name inside an object. -/
def Node.name : Node → Option (List Nat)
  | .mk _ _ _ _ k _ => k

def Node.children : Node → NodeList
  | .mk _ _ _ _ _ c => c

/-- `child->string = key` (ownership transfer in `parse_object`). -/
def Node.setName : Node → List Nat → Node
  | .mk t vs vi vd _ ch, k => .mk t vs vi vd (some k) ch

def NodeList.append : NodeList → NodeList → NodeList
  | .nil, ys => ys
  | .cons x xs, ys => .cons x (xs.append ys)

/-- Append one node at the tail (the C code walks `next` to the tail). -/
def NodeList.snoc (xs : NodeList) (y : Node) : NodeList :=
  xs.append (.cons y .nil)

def NodeList.toList : NodeList → List Node
  | .nil => []
  | .cons x xs => x :: xs.toList

def NodeList.length : NodeList → Nat
  | .nil => 0
  | .cons _ xs => xs.length + 1

def NodeList.head? : NodeList → Option Node
  | .nil => none
  | .cons x _ => some x

/-- Type flags from cJSON.h. -/
def cJSON_False : Nat := 1
def cJSON_True : Nat := 2
def cJSON_NULL : Nat := 4
def cJSON_Number : Nat := 8
def cJSON_String : Nat := 16
def cJSON_Array : Nat := 32
def cJSON_Object : Nat := 64

/-- `skip`: advance over every byte `≤ 32` (`while (*in && *in <= 32) in++`).
The NUL check of the loop is the end-of-list check here (inputs are
NUL-free C strings). -/
def skip (s : List Nat) : List Nat := s.dropWhile (fun b => decide (b ≤ 32))

/-- The body of `parse_string`, after the opening quote: the
`while (*ptr && *ptr != '"')` loop.  Returns the decoded bytes and the rest
of the input after the closing quote; `none` for an unterminated string, an
invalid escape, or a `\u` escape without four hex digits. -/
def parseStringBody : List Nat → Option (List Nat × List Nat)
  | [] => none
  | 34 :: rest => some ([], rest)
  | 92 :: rest =>
    match rest with
    | [] => none
    | e :: r =>
      if e = 34 ∨ e = 47 ∨ e = 92 then
        (parseStringBody r).map (fun p => (e :: p.1, p.2))
      else if e = 98 then (parseStringBody r).map (fun p => (8 :: p.1, p.2))
      else if e = 102 then (parseStringBody r).map (fun p => (12 :: p.1, p.2))
      else if e = 110 then (parseStringBody r).map (fun p => (10 :: p.1, p.2))
      else if e = 114 then (parseStringBody r).map (fun p => (13 :: p.1, p.2))
      else if e = 116 then (parseStringBody r).map (fun p => (9 :: p.1, p.2))
      else if e = 117 then
        match r with
        | c1 :: c2 :: c3 :: c4 :: r2 =>
          match hexVal c1, hexVal c2, hexVal c3, hexVal c4 with
          | some v1, some v2, some v3, some v4 =>
            (parseStringBody r2).map
              (fun p => (utf8Encode (((v1 * 16 + v2) * 16 + v3) * 16 + v4) ++ p.1, p.2))
          | _, _, _, _ => none
        | _ => none
      else none
  | c :: rest => (parseStringBody rest).map (fun p => (c :: p.1, p.2))

/-- `parse_string`: input must start at the opening quote. -/
def parse_string (s : List Nat) : Option (List Nat × List Nat) :=
  match s with
  | 34 :: rest => parseStringBody rest
  | _ => none

/-- Exponent part of `strtod` after `e`/`E` (or `p`/`P` in hex form):
optional sign, then one or more digits; `none` means strtod does not
consume the exponent marker (longest valid prefix). -/
def parseExpPart (s : List Nat) : Option (Int × List Nat) :=
  let p := match s with
    | 45 :: r => (true, r)
    | 43 :: r => (false, r)
    | r => (false, r)
  let ds := p.2.takeWhile isDigitB
  if ds.isEmpty then none
  else some ((if p.1 then -(digitsVal ds : Int) else (digitsVal ds : Int)),
             p.2.dropWhile isDigitB)

/-- Decimal significand/exponent form accepted by `strtod`: digits
optionally containing one decimal point (at least one digit in total),
then an optional exponent. -/
def strtodDec (s : List Nat) : Option (FDouble × List Nat) :=
  let d1 := s.takeWhile isDigitB
  let r1 := s.dropWhile isDigitB
  let fr : List Nat × List Nat := match r1 with
    | 46 :: rr => (rr.takeWhile isDigitB, rr.dropWhile isDigitB)
    | _ => ([], r1)
  let d2 := fr.1
  let r2 := fr.2
  if d1.isEmpty ∧ d2.isEmpty then none
  else
    let num : Int := ((digitsVal d1 * 10 ^ d2.length + digitsVal d2 : Nat) : Int)
    let den : Nat := 10 ^ d2.length
    let fin : Int × Nat × List Nat := match r2 with
      | e :: rr =>
        if e = 101 ∨ e = 69 then
          match parseExpPart rr with
          | some (ex, rr2) =>
            if 0 ≤ ex then (num * 10 ^ ex.toNat, den, rr2)
            else (num, den * 10 ^ (-ex).toNat, rr2)
          | none => (num, den, r2)
        else (num, den, r2)
      | [] => (num, den, r2)
    some (FDouble.mkFin fin.1 fin.2.1, fin.2.2)

/-- Hexadecimal significand form of `strtod`, after the `0x`/`0X` prefix:
hex digits optionally containing one point, optional `p` binary exponent. -/
def strtodHex (s : List Nat) : Option (FDouble × List Nat) :=
  let isHexB : Nat → Bool := fun b => (hexVal b).isSome
  let h1 := s.takeWhile isHexB
  let r1 := s.dropWhile isHexB
  let fr : List Nat × List Nat := match r1 with
    | 46 :: rr => (rr.takeWhile isHexB, rr.dropWhile isHexB)
    | _ => ([], r1)
  let h2 := fr.1
  let r2 := fr.2
  if h1.isEmpty ∧ h2.isEmpty then none
  else
    let num : Int := ((hexDigitsVal h1 * 16 ^ h2.length + hexDigitsVal h2 : Nat) : Int)
    let den : Nat := 16 ^ h2.length
    let fin : Int × Nat × List Nat := match r2 with
      | p :: rr =>
        if p = 112 ∨ p = 80 then
          match parseExpPart rr with
          | some (ex, rr2) =>
            if 0 ≤ ex then (num * 2 ^ ex.toNat, den, rr2)
            else (num, den * 2 ^ (-ex).toNat, rr2)
          | none => (num, den, r2)
        else (num, den, r2)
      | [] => (num, den, r2)
    some (FDouble.mkFin fin.1 fin.2.1, fin.2.2)

def lowerByte (b : Nat) : Nat := if 65 ≤ b ∧ b ≤ 90 then b + 32 else b

/-- Magnitude part of `strtod`: `infinity`/`inf`/`nan` (case-insensitive),
hexadecimal (`0x`/`0X` prefix, falling back to just the `0` when no hex
digit follows), or decimal. -/
def strtodMag (s : List Nat) : Option (FDouble × List Nat) :=
  let low := s.map lowerByte
  if [105, 110, 102, 105, 110, 105, 116, 121].isPrefixOf low then
    some (.posInf, s.drop 8)
  else if [105, 110, 102].isPrefixOf low then some (.posInf, s.drop 3)
  else if [110, 97, 110].isPrefixOf low then some (.nan, s.drop 3)
  else
    match s with
    | 48 :: x :: r =>
      if x = 120 ∨ x = 88 then
        match strtodHex r with
        | some v => some v
        | none => some (.finite 0 1, x :: r)
      else strtodDec s
    | _ => strtodDec s

/-- Model of C `strtod` (C17 7.22.1.3) as used by `parse_number`: skip
`isspace` whitespace, optional sign, then a magnitude.  The finite result
is the exact rational value (binary64 rounding abstracted away); overflow
returns ±Inf, the ±HUGE_VAL strtod yields.  `nan(n-char-seq)` payloads and
the ERANGE underflow flag are not modelled (no claim depends on them).
`none` means no conversion was performed (`endptr == nptr`). -/
def strtod (s : List Nat) : Option (FDouble × List Nat) :=
  let s0 := s.dropWhile isspaceB
  match s0 with
  | 45 :: r => (strtodMag r).map (fun p => (p.1.fneg, p.2))
  | 43 :: r => strtodMag r
  | _ => strtodMag s0

/-- `parse_number`: `strtod`, failing only when no characters were
converted; sets `valuedouble`, `valueint = (int)val` and the Number type. -/
def parse_number (s : List Nat) : Option (Node × List Nat) :=
  match strtod s with
  | none => none
  | some (val, rest) =>
    some (.mk cJSON_Number none val.truncInt val none .nil, rest)

/-- `parse_const`: exact `strncmp` matches for `true`, `false`, `null`. -/
def parse_const (s : List Nat) : Option (Node × List Nat) :=
  if [116, 114, 117, 101].isPrefixOf s then
    some (.mk cJSON_True none 1 (.finite 0 1) none .nil, s.drop 4)
  else if [102, 97, 108, 115, 101].isPrefixOf s then
    some (.mk cJSON_False none 0 (.finite 0 1) none .nil, s.drop 5)
  else if [110, 117, 108, 108].isPrefixOf s then
    some (.mk cJSON_NULL none 0 (.finite 0 1) none .nil, s.drop 4)
  else none

/-! The recursive-descent parser, with a fuel parameter bounding the call
depth.  Every nested call chain consumes input, so with the generous fuel
given by the `parse_value` wrapper below the `0` case is unreachable. -/
mutual

def parseValueF : Nat → List Nat → Option (Node × List Nat)
  | 0, _ => none
  | Nat.succ fuel, s =>
    let s1 := skip s
    match s1 with
    | 34 :: _ =>
      -- SOURCE BUG modelled faithfully: on success the C code returns
      -- `value + 0` — the cursor still at the OPENING quote — instead of
      -- the end pointer produced by parse_string (cJSON.c line 250).
      match parse_string s1 with
      | some (str, _after) =>
        some (.mk cJSON_String (some str) 0 (.finite 0 1) none .nil, s1)
      | none => none
    | 123 :: _ => parseObjectF fuel s1
    | 91 :: _ => parseArrayF fuel s1
    | c :: _ => if c = 45 ∨ isDigitB c then parse_number s1 else parse_const s1
    | [] => parse_const s1

def parseArrayF : Nat → List Nat → Option (Node × List Nat)
  | 0, _ => none
  | Nat.succ fuel, s =>
    match s with
    | 91 :: r =>
      let s1 := skip r
      match s1 with
      | 93 :: r2 => some (.mk cJSON_Array none 0 (.finite 0 1) none .nil, r2)
      | _ =>
        match parseArrayItemsF fuel s1 .nil with
        | some (cs, rest) =>
          some (.mk cJSON_Array none 0 (.finite 0 1) none cs, rest)
        | none => none
    | _ => none

/-- The `while (*value)` loop of `parse_array`.  Note that running out of
input exits the loop and SUCCEEDS with the items collected so far, exactly
as the C loop does. -/
def parseArrayItemsF : Nat → List Nat → NodeList → Option (NodeList × List Nat)
  | 0, _, _ => none
  | Nat.succ fuel, s, acc =>
    match s with
    | [] => some (acc, [])
    | _ =>
      match parseValueF fuel (skip s) with
      | none => none
      | some (child, s1) =>
        match skip s1 with
        | 44 :: r => parseArrayItemsF fuel r (acc.snoc child)
        | 93 :: r => some (acc.snoc child, r)
        | _ => none

def parseObjectF : Nat → List Nat → Option (Node × List Nat)
  | 0, _ => none
  | Nat.succ fuel, s =>
    match s with
    | 123 :: r =>
      let s1 := skip r
      match s1 with
      | 125 :: r2 => some (.mk cJSON_Object none 0 (.finite 0 1) none .nil, r2)
      | _ =>
        match parseObjectMembersF fuel s1 .nil with
        | some (cs, rest) =>
          some (.mk cJSON_Object none 0 (.finite 0 1) none cs, rest)
        | none => none
    | _ => none

/-- The `while (*value)` loop of `parse_object`: a quote-delimited key
(no whitespace skip before the key check, exactly as in the C loop), `:`,
a value, then `,` or `}`.  Running out of input exits the loop and
succeeds with the members collected so far, as in the C loop. -/
def parseObjectMembersF : Nat → List Nat → NodeList → Option (NodeList × List Nat)
  | 0, _, _ => none
  | Nat.succ fuel, s, acc =>
    match s with
    | [] => some (acc, [])
    | 34 :: _ =>
      match parse_string s with
      | none => none
      | some (key, s1) =>
        match skip s1 with
        | 58 :: r =>
          match parseValueF fuel (skip r) with
          | none => none
          | some (child, s2) =>
            match skip s2 with
            | 44 :: r2 => parseObjectMembersF fuel r2 (acc.snoc (child.setName key))
            | 125 :: r2 => some (acc.snoc (child.setName key), r2)
            | _ => none
        | _ => none
    | _ => none

end

/-- `parse_value` with fuel that can never run out: the nesting depth of
the C parser is bounded by the input length, and each unit of fuel spent
without consuming input is bounded by a small constant per level. -/
def parse_value (s : List Nat) : Option (Node × List Nat) :=
  parseValueF (4 * s.length + 8) s

/-- `cJSON_Parse`: parse one value, then require that only whitespace (in
the sense of `skip`) remains before the end of input. -/
def cJSON_Parse (s : List Nat) : Option Node :=
  match parse_value s with
  | none => none
  | some (root, after) => if skip after = [] then some root else none

/-- Escaping of one byte in `print_string`: the six named shortcuts plus
`\"` and `\\`, other control bytes as `\u00XX`, everything else verbatim. -/
def escapeByte (c : Nat) : List Nat :=
  if c = 34 then [92, 34]
  else if c = 92 then [92, 92]
  else if c = 8 then [92, 98]
  else if c = 12 then [92, 102]
  else if c = 10 then [92, 110]
  else if c = 13 then [92, 114]
  else if c = 9 then [92, 116]
  else if c < 32 then [92, 117, 48, 48, hexLower (c / 16), hexLower (c % 16)]
  else [c]

/-- `print_string`: a NULL string prints as `""`; otherwise quote, escaped
content, quote. -/
def print_string : Option (List Nat) → List Nat
  | none => [34, 34]
  | some s => 34 :: ((s.map escapeByte).flatten ++ [34])

/-- The Number case of `print_value`: `%d` of `valueint` when
`valuedouble == (double)valueint`, otherwise `%.15g` of `valuedouble`. -/
def print_number (vi : Int) (vd : FDouble) : List Nat :=
  if vd.feq (FDouble.ofInt vi) then intToDecimal vi else g15 vd

/-- Join printed parts with `','`, as the print loops do. -/
def joinComma : List (List Nat) → List Nat
  | [] => []
  | [x] => x
  | x :: xs => x ++ 44 :: joinComma xs

/-! `print_value` / `print_array` / `print_object`.  The switch is on
`type & 0xFF`, written `% 256` (equal on naturals since 256 = 0x100).
The only failure left in the model is an unknown type tag (the C default
case); allocation failure is not modelled. -/
mutual

def print_value : Node → Option (List Nat)
  | .mk t vs vi vd _ ch =>
    let tt := t % 256
    if tt = cJSON_NULL then some [110, 117, 108, 108]
    else if tt = cJSON_False then some [102, 97, 108, 115, 101]
    else if tt = cJSON_True then some [116, 114, 117, 101]
    else if tt = cJSON_Number then some (print_number vi vd)
    else if tt = cJSON_String then some (print_string vs)
    else if tt = cJSON_Array then
      match printItems ch with
      | some parts => some (91 :: (joinComma parts ++ [93]))
      | none => none
    else if tt = cJSON_Object then
      match printMembers ch with
      | some parts => some (123 :: (joinComma parts ++ [125]))
      | none => none
    else none

def printItems : NodeList → Option (List (List Nat))
  | .nil => some []
  | .cons c cs =>
    match print_value c, printItems cs with
    | some p, some ps => some (p :: ps)
    | _, _ => none

def printMembers : NodeList → Option (List (List Nat))
  | .nil => some []
  | .cons c cs =>
    match print_value c, printMembers cs with
    | some p, some ps => some ((print_string c.name ++ 58 :: p) :: ps)
    | _, _ => none

end

def cJSON_PrintUnformatted (item : Node) : Option (List Nat) := print_value item

/-- `cJSON_GetObjectItem`: walk the children, returning the first whose
name is non-NULL and `strcmp`-equal to the requested name. -/
def getObjectItemLoop : NodeList → List Nat → Option Node
  | .nil, _ => none
  | .cons c cs, nm =>
    match c.name with
    | some k => if k = nm then some c else getObjectItemLoop cs nm
    | none => getObjectItemLoop cs nm

def cJSON_GetObjectItem (object : Node) (nm : List Nat) : Option Node :=
  getObjectItemLoop object.children nm

/-- `cJSON_GetArrayItem`: `while (child && index > 0) { child = child->next;
index--; } return child;` — a negative index never enters the loop. -/
def getArrayItemLoop : NodeList → Int → Option Node
  | .nil, _ => none
  | .cons c cs, index =>
    if 0 < index then getArrayItemLoop cs (index - 1) else some c

def cJSON_GetArrayItem (array : Node) (index : Int) : Option Node :=
  getArrayItemLoop array.children index

/-- `cJSON_CreateString` (a fresh zeroed item with type and payload set). -/
def cJSON_CreateString (s : List Nat) : Node :=
  .mk cJSON_String (some s) 0 (.finite 0 1) none .nil

def cJSON_CreateNumber (num : FDouble) : Node :=
  .mk cJSON_Number none num.truncInt num none .nil

def cJSON_CreateObject : Node :=
  .mk cJSON_Object none 0 (.finite 0 1) none .nil

def cJSON_CreateArray : Node :=
  .mk cJSON_Array none 0 (.finite 0 1) none .nil

/-- `cJSON_AddItemToObject`: no-op unless the target is an Object; sets the
item's name and appends it at the tail of the child list. -/
def cJSON_AddItemToObject (object : Node) (s : List Nat) (item : Node) : Node :=
  if object.type = cJSON_Object then
    .mk object.type object.valuestring object.valueint object.valuedouble
       object.name (object.children.snoc (item.setName s))
  else object

/-- `cJSON_AddItemToArray`: no-op unless the target is an Array; appends at
the tail of the child list. -/
def cJSON_AddItemToArray (array : Node) (item : Node) : Node :=
  if array.type = cJSON_Array then
    .mk array.type array.valuestring array.valueint array.valuedouble
       array.name (array.children.snoc item)
  else array

/-- Member-name list of an object node, in child order. -/
def objectKeys (o : Node) : List (Option (List Nat)) :=
  o.children.toList.map Node.name

end CJson

/-! ## Model of `plugins/cpp/third_party/nlohmann/json.hpp` -/

namespace Nlohmann

/-! The `json` value: `std::variant` over null / bool / double / string /
vector / map.  `object_t = std::map<std::string, json>` is an ordered map
sorted by `std::string`'s `operator<`; it is modelled by `MList`, an
association list kept sorted by byte-lexicographic key order with unique
keys, which is the exact observable content of the `std::map`. -/
mutual
inductive JValue where
  | null
  | bool (b : Bool)
  | num (d : FDouble)
  | str (s : List Nat)
  | arr (elems : JList)
  | obj (members : MList)
inductive JList where
  | nil
  | cons (hd : JValue) (tl : JList)
inductive MList where
  | nil
  | cons (key : List Nat) (val : JValue) (tl : MList)
end

def JList.snoc : JList → JValue → JList
  | .nil, v => .cons v .nil
  | .cons x xs, v => .cons x (xs.snoc v)

/-- `std::string` `operator<`: byte-lexicographic (unsigned chars). -/
def lexLt : List Nat → List Nat → Bool
  | [], [] => false
  | [], _ :: _ => true
  | _ :: _, [] => false
  | a :: as, b :: bs =>
    if a < b then true else if b < a then false else lexLt as bs

/-- `std::map::emplace`: insert at the sorted position; if an element with
an equal key already exists, KEEP the existing one (first occurrence wins
for duplicate keys in the parsed text). -/
def MList.emplace (k : List Nat) (v : JValue) : MList → MList
  | .nil => .cons k v .nil
  | .cons k2 v2 rest =>
    if lexLt k k2 then .cons k v (.cons k2 v2 rest)
    else if k = k2 then .cons k2 v2 rest
    else .cons k2 v2 (MList.emplace k v rest)

/-- `std::map::find` (used by the const `operator[]` and `contains`). -/
def MList.find : MList → List Nat → Option JValue
  | .nil, _ => none
  | .cons k v rest, key => if k = key then some v else MList.find rest key

def MList.keys : MList → List (List Nat)
  | .nil => []
  | .cons k _ rest => k :: rest.keys

/-- `skip_ws`: advance while `std::isspace` holds. -/
def skip_ws (s : List Nat) : List Nat := s.dropWhile isspaceB

/-- Body of `json::parse_string` after the opening quote.  Identical escape
logic to the C variant, except that the `\u` case first checks that at
least four bytes remain (`idx + 4 > s.size()`). -/
def parseStringBody : List Nat → Option (List Nat × List Nat)
  | [] => none
  | 34 :: rest => some ([], rest)
  | 92 :: rest =>
    match rest with
    | [] => none
    | e :: r =>
      if e = 34 then (parseStringBody r).map (fun p => (34 :: p.1, p.2))
      else if e = 92 then (parseStringBody r).map (fun p => (92 :: p.1, p.2))
      else if e = 47 then (parseStringBody r).map (fun p => (47 :: p.1, p.2))
      else if e = 98 then (parseStringBody r).map (fun p => (8 :: p.1, p.2))
      else if e = 102 then (parseStringBody r).map (fun p => (12 :: p.1, p.2))
      else if e = 110 then (parseStringBody r).map (fun p => (10 :: p.1, p.2))
      else if e = 114 then (parseStringBody r).map (fun p => (13 :: p.1, p.2))
      else if e = 116 then (parseStringBody r).map (fun p => (9 :: p.1, p.2))
      else if e = 117 then
        if r.length < 4 then none
        else
          match r with
          | c1 :: c2 :: c3 :: c4 :: r2 =>
            match hexVal c1, hexVal c2, hexVal c3, hexVal c4 with
            | some v1, some v2, some v3, some v4 =>
              (parseStringBody r2).map
                (fun p => (utf8Encode (((v1 * 16 + v2) * 16 + v3) * 16 + v4) ++ p.1, p.2))
            | _, _, _, _ => none
          | _ => none
      else none
  | c :: rest => (parseStringBody rest).map (fun p => (c :: p.1, p.2))

/-- `json::parse_string`: input starts at the opening quote. -/
def parse_string (s : List Nat) : Option (List Nat × List Nat) :=
  match s with
  | 34 :: rest => parseStringBody rest
  | _ => none

/-- Fraction part of `json::parse_number`: a `'.'` must be followed by at
least one digit. -/
def fracPart (s : List Nat) : Option (List Nat × List Nat) :=
  match s with
  | 46 :: rr =>
    let ds := rr.takeWhile isDigitB
    if ds.isEmpty then none else some (ds, rr.dropWhile isDigitB)
  | _ => some ([], s)

/-- Exponent part of `json::parse_number`: `e`/`E`, optional sign, then at
least one digit required. -/
def expPart (s : List Nat) : Option (Int × List Nat) :=
  match s with
  | e :: rr =>
    if e = 101 ∨ e = 69 then
      let p := match rr with
        | 45 :: r2 => (true, r2)
        | 43 :: r2 => (false, r2)
        | _ => (false, rr)
      let ds := p.2.takeWhile isDigitB
      if ds.isEmpty then none
      else some ((if p.1 then -(digitsVal ds : Int) else (digitsVal ds : Int)),
                 p.2.dropWhile isDigitB)
    else some (0, s)
  | [] => some (0, [])

/-- `json::parse_number`: scan `[-] digits [. digits] [(e|E) [sign] digits]`
with the stated mandatory-digit rules, then convert the token with `strtod`
(exact here, binary rounding abstracted).  A magnitude at or beyond the
binary64 overflow threshold makes `strtod` set ERANGE, which the source
turns into a parse error. -/
def parse_number (s : List Nat) : Option (FDouble × List Nat) :=
  let p := match s with
    | 45 :: r => (true, r)
    | _ => (false, s)
  let d1 := p.2.takeWhile isDigitB
  if d1.isEmpty then none
  else
    match fracPart (p.2.dropWhile isDigitB) with
    | none => none
    | some (d2, r2) =>
      match expPart r2 with
      | none => none
      | some (ex, r3) =>
        let num0 : Int := ((digitsVal d1 * 10 ^ d2.length + digitsVal d2 : Nat) : Int)
        let num : Int := if p.1 then -num0 else num0
        let den : Nat := 10 ^ d2.length
        let q : Int × Nat :=
          if 0 ≤ ex then (num * 10 ^ ex.toNat, den) else (num, den * 10 ^ (-ex).toNat)
        if dblOvf * q.2 ≤ q.1.natAbs then none
        else some (.finite q.1 q.2, r3)

/-! `json::parse_internal` / `parse_object` / `parse_array`, with a fuel
parameter bounding the recursion depth exactly as in the C model. -/
mutual

def parseInternalF : Nat → List Nat → Option (JValue × List Nat)
  | 0, _ => none
  | Nat.succ fuel, s =>
    let s1 := skip_ws s
    match s1 with
    | [] => none
    | 123 :: _ => parseObjectF fuel s1
    | 91 :: _ => parseArrayF fuel s1
    | 34 :: _ =>
      match parse_string s1 with
      | some (str, rest) => some (.str str, rest)
      | none => none
    | 110 :: _ =>
      if [110, 117, 108, 108].isPrefixOf s1 then some (.null, s1.drop 4) else none
    | 116 :: _ =>
      if [116, 114, 117, 101].isPrefixOf s1 then some (.bool true, s1.drop 4) else none
    | 102 :: _ =>
      if [102, 97, 108, 115, 101].isPrefixOf s1 then some (.bool false, s1.drop 5) else none
    | c :: _ =>
      if c = 45 ∨ isDigitB c then
        match parse_number s1 with
        | some (d, rest) => some (.num d, rest)
        | none => none
      else none

def parseObjectF : Nat → List Nat → Option (JValue × List Nat)
  | 0, _ => none
  | Nat.succ fuel, s =>
    match s with
    | 123 :: r =>
      let s1 := skip_ws r
      match s1 with
      | 125 :: r2 => some (.obj .nil, r2)
      | _ => parseObjMembersF fuel s1 .nil
    | _ => none

/-- The member loop of `json::parse_object`: skip whitespace, a string key,
`:`, a value (`parse_internal` skips its own leading whitespace), `emplace`
into the map, then `,` or `}`; end of input inside the loop is an error. -/
def parseObjMembersF : Nat → List Nat → MList → Option (JValue × List Nat)
  | 0, _, _ => none
  | Nat.succ fuel, s, acc =>
    let s1 := skip_ws s
    match s1 with
    | 34 :: _ =>
      match parse_string s1 with
      | none => none
      | some (key, s2) =>
        match skip_ws s2 with
        | 58 :: r =>
          match parseInternalF fuel r with
          | none => none
          | some (v, s3) =>
            let acc2 := acc.emplace key v
            match skip_ws s3 with
            | 44 :: r2 => parseObjMembersF fuel r2 acc2
            | 125 :: r2 => some (.obj acc2, r2)
            | _ => none
        | _ => none
    | _ => none

def parseArrayF : Nat → List Nat → Option (JValue × List Nat)
  | 0, _ => none
  | Nat.succ fuel, s =>
    match s with
    | 91 :: r =>
      let s1 := skip_ws r
      match s1 with
      | 93 :: r2 => some (.arr .nil, r2)
      | _ => parseArrElemsF fuel s1 .nil
    | _ => none

/-- The element loop of `json::parse_array`: a value, then `,` or `]`; end
of input inside the loop is an error. -/
def parseArrElemsF : Nat → List Nat → JList → Option (JValue × List Nat)
  | 0, _, _ => none
  | Nat.succ fuel, s, acc =>
    match parseInternalF fuel s with
    | none => none
    | some (v, s1) =>
      let acc2 := acc.snoc v
      match skip_ws s1 with
      | 44 :: r => parseArrElemsF fuel r acc2
      | 93 :: r => some (.arr acc2, r)
      | _ => none

end

/-- `parse_internal` with inexhaustible fuel (depth is bounded by input
length as in the C model). -/
def parse_internal (s : List Nat) : Option (JValue × List Nat) :=
  parseInternalF (4 * s.length + 8) s

/-- `json::parse`: one value, then only whitespace up to end of input
(`Extra characters after JSON value` otherwise). -/
def parse (s : List Nat) : Option JValue :=
  match parse_internal s with
  | none => none
  | some (v, rest) => if skip_ws rest = [] then some v else none

/-- Escaping of one byte in `dump_internal`, char-for-char the same switch
as the C serializer (snprintf `\u%04x` for other control bytes). -/
def escapeByte (c : Nat) : List Nat :=
  if c = 34 then [92, 34]
  else if c = 92 then [92, 92]
  else if c = 8 then [92, 98]
  else if c = 12 then [92, 102]
  else if c = 10 then [92, 110]
  else if c = 13 then [92, 114]
  else if c = 9 then [92, 116]
  else if c < 32 then [92, 117, 48, 48, hexLower (c / 16), hexLower (c % 16)]
  else [c]

/-- The number case of `dump_internal`: finite values via an
`ostringstream` with precision `digits10 = 15` (`%.15g`-equivalent),
non-finite values as `null`. -/
def numToBytes : FDouble → List Nat
  | .finite n d => gFormatRat n d
  | _ => [110, 117, 108, 108]

/-! `dump_internal`: compact form, comma-joined children, object members as
`"key":value` in map (key-sorted) order. -/
mutual

def dump_internal : JValue → List Nat
  | .null => [110, 117, 108, 108]
  | .bool true => [116, 114, 117, 101]
  | .bool false => [102, 97, 108, 115, 101]
  | .num d => numToBytes d
  | .str s => 34 :: ((s.map escapeByte).flatten ++ [34])
  | .arr elems => 91 :: (dumpElems elems ++ [93])
  | .obj members => 123 :: (dumpMembers members ++ [125])

def dumpElems : JList → List Nat
  | .nil => []
  | .cons v .nil => dump_internal v
  | .cons v tl => dump_internal v ++ 44 :: dumpElems tl

def dumpMembers : MList → List Nat
  | .nil => []
  | .cons k v .nil =>
    (34 :: ((k.map escapeByte).flatten ++ [34])) ++ 58 :: dump_internal v
  | .cons k v tl =>
    ((34 :: ((k.map escapeByte).flatten ++ [34])) ++ 58 :: dump_internal v)
      ++ 44 :: dumpMembers tl

end

/-- `json::dump()` (compact). -/
def dump (v : JValue) : List Nat := dump_internal v

end Nlohmann

/-! ## Concrete fixtures used by the theorems below -/

/-- The number node the C parser builds for the token `1`. -/
def numNode1 : CJson.Node := .mk CJson.cJSON_Number none 1 (.finite 1 1) none .nil

/-- The member nodes and root the C parser builds for `{"b":1,"a":2}`
(keys in textual order `b`, `a`). -/
def baNodeB : CJson.Node := .mk CJson.cJSON_Number none 1 (.finite 1 1) (some [98]) .nil

def baNodeA : CJson.Node := .mk CJson.cJSON_Number none 2 (.finite 2 1) (some [97]) .nil

def baRoot : CJson.Node :=
  .mk CJson.cJSON_Object none 0 (.finite 0 1) none (.cons baNodeB (.cons baNodeA .nil))

/-- The member nodes and root the C parser builds for `{"a":1,"a":2}`
(duplicate key `a`, both members kept, in input order). -/
def dupNode1 : CJson.Node := .mk CJson.cJSON_Number none 1 (.finite 1 1) (some [97]) .nil

def dupNode2 : CJson.Node := .mk CJson.cJSON_Number none 2 (.finite 2 1) (some [97]) .nil

def dupRoot : CJson.Node :=
  .mk CJson.cJSON_Object none 0 (.finite 0 1) none (.cons dupNode1 (.cons dupNode2 .nil))

/-- A one-element C array node. -/
def c10Arr : CJson.Node :=
  .mk CJson.cJSON_Array none 0 (.finite 0 1) none (.cons numNode1 .nil)

/-! ## Shared helper lemmas -/

theorem nodeList_toList_append :
    ∀ (xs ys : CJson.NodeList), (xs.append ys).toList = xs.toList ++ ys.toList
  | .nil, _ => rfl
  | .cons x xs, ys => by
    simp [CJson.NodeList.append, CJson.NodeList.toList, nodeList_toList_append xs ys]

theorem getObjectItemLoop_eq_find :
    ∀ (cs : CJson.NodeList) (nm : List Nat),
      CJson.getObjectItemLoop cs nm
        = cs.toList.find? (fun c => c.name == some nm)
  | .nil, _ => rfl
  | .cons c cs, nm => by
    simp only [CJson.getObjectItemLoop, CJson.NodeList.toList, List.find?]
    cases h : c.name with
    | none => simp [h, getObjectItemLoop_eq_find cs nm]
    | some k =>
      by_cases hk : k = nm
      · subst hk; simp [h]
      · have hb : (k == nm) = false := beq_eq_false_iff_ne.mpr hk
        simp [h, hk, hb, getObjectItemLoop_eq_find cs nm]

theorem getArrayItemLoop_oob :
    ∀ (cs : CJson.NodeList) (n : Int),
      (cs.length : Int) ≤ n → CJson.getArrayItemLoop cs n = none
  | .nil, _, _ => rfl
  | .cons c cs, n, h => by
    have hl : ((cs.length + 1 : Nat) : Int) ≤ n := by
      simpa [CJson.NodeList.length] using h
    have h0 : 0 < n := by push_cast at hl; omega
    have h1 : (cs.length : Int) ≤ n - 1 := by push_cast at hl; omega
    simp [CJson.getArrayItemLoop, h0, getArrayItemLoop_oob cs (n - 1) h1]

/-! ## Claims -/

/-- C1: the claimed builder round-trip `parse(serialize(v)) == v` fails in
the C implementation at the failing input `cJSON_CreateString("x")`:
serialization yields `"x"`, but `cJSON_Parse` returns NULL on it, because
`parse_value` returns the cursor still at the opening quote, so the
trailing-input check of `cJSON_Parse` sees the string again.  This
contradicts the repository's own unit tests, which require documents
containing string values to parse. -/
theorem c1_string_roundtrip_fails_in_cjson :
    CJson.cJSON_PrintUnformatted (CJson.cJSON_CreateString (strBytes "x"))
      = some (strBytes "\"x\"")
    ∧ CJson.cJSON_Parse (strBytes "\"x\"") = none :=
  ⟨rfl, rfl⟩

/-- C2: the claimed escaping inverse `parse(serialize(makeString(s)))`
fails in the C implementation already at s = "x": any document containing
a string VALUE is rejected by `cJSON_Parse` (same `parse_value` cursor bug
as C1), so the string can never be read back.  The repository's own test
`ParseStringEscapes` requires this very document shape to parse. -/
theorem c2_escaping_inverse_fails_in_cjson :
    CJson.cJSON_Parse (strBytes "\x7b\"s\":\"x\"\x7d") = none :=
  rfl

/-- C3 counterexample: in the C++ implementation, parsing `{"b":1,"a":2}`
and re-serializing yields `{"a":2,"b":1}` — the members are key-sorted by
the `std::map`, not kept in input order, refuting the claim as stated. -/
theorem c3_cpp_object_order_is_key_sorted :
    (Nlohmann.parse (strBytes "\x7b\"b\":1,\"a\":2\x7d")).map Nlohmann.dump
      = some (strBytes "\x7b\"a\":2,\"b\":1\x7d")
    ∧ strBytes "\x7b\"a\":2,\"b\":1\x7d" ≠ strBytes "\x7b\"b\":1,\"a\":2\x7d" :=
  ⟨rfl, by decide⟩

/-- C3 amended: in the C implementation, object member order is insertion
order — `cJSON_AddItemToObject` appends at the tail, and parsing
`{"b":1,"a":2}` keeps the textual key order `b`, `a`, which re-serializes
to the original text; the C++ implementation instead stores members in a
key-sorted `std::map` (see the counterexample). -/
theorem c3_object_order_amended :
    (∀ (o : CJson.Node) (k : List Nat) (it : CJson.Node),
        o.type = CJson.cJSON_Object →
        CJson.objectKeys (CJson.cJSON_AddItemToObject o k it)
          = CJson.objectKeys o ++ [some k])
    ∧ CJson.cJSON_Parse (strBytes "\x7b\"b\":1,\"a\":2\x7d") = some baRoot
    ∧ CJson.objectKeys baRoot = [some (strBytes "b"), some (strBytes "a")]
    ∧ CJson.cJSON_PrintUnformatted baRoot
        = some (strBytes "\x7b\"b\":1,\"a\":2\x7d") := by
  refine ⟨?_, rfl, rfl, rfl⟩
  intro o k it h
  cases o with
  | mk t vs vi vd nm ch =>
    cases it with
    | mk t2 vs2 vi2 vd2 nm2 ch2 =>
      simp only [CJson.Node.type] at h
      simp [CJson.cJSON_AddItemToObject, CJson.objectKeys, h, CJson.Node.type,
        CJson.Node.children, CJson.Node.valuestring, CJson.Node.valueint,
        CJson.Node.valuedouble, CJson.Node.name, CJson.Node.setName,
        CJson.NodeList.snoc, nodeList_toList_append, CJson.NodeList.toList]

/-- C3 amended, witness: appending the member `k` to a fresh object puts
its key last in the member-name list. -/
theorem c3_object_order_amended_witness :
    CJson.objectKeys
        (CJson.cJSON_AddItemToObject CJson.cJSON_CreateObject (strBytes "k") numNode1)
      = CJson.objectKeys CJson.cJSON_CreateObject ++ [some (strBytes "k")] :=
  c3_object_order_amended.1 CJson.cJSON_CreateObject (strBytes "k") numNode1 rfl

/-- C4: in both implementations the top-level entry point rejects any input
in which, after the single parsed value, something other than engine
whitespace remains before end-of-input ("whitespace" being each scanner's
own skip set, the subject of C9). -/
theorem c4_trailing_garbage_rejected :
    (∀ (s rest : List Nat) (v : CJson.Node),
        CJson.parse_value s = some (v, rest) → CJson.skip rest ≠ [] →
        CJson.cJSON_Parse s = none)
    ∧ (∀ (s rest : List Nat) (v : Nlohmann.JValue),
        Nlohmann.parse_internal s = some (v, rest) → Nlohmann.skip_ws rest ≠ [] →
        Nlohmann.parse s = none) := by
  constructor
  · intro s rest v h hne
    unfold CJson.cJSON_Parse
    rw [h]
    simp [hne]
  · intro s rest v h hne
    unfold Nlohmann.parse
    rw [h]
    simp [hne]

/-- C4 witness: `1 x` — a well-formed number followed by non-whitespace —
is rejected by both parsers. -/
theorem c4_trailing_garbage_rejected_witness :
    CJson.cJSON_Parse (strBytes "1 x") = none
    ∧ Nlohmann.parse (strBytes "1 x") = none := by
  constructor
  · exact c4_trailing_garbage_rejected.1 (strBytes "1 x") [32, 120] numNode1
      rfl (by decide)
  · exact c4_trailing_garbage_rejected.2 (strBytes "1 x") [32, 120]
      (.num (.finite 1 1)) rfl (by decide)

/-- C5: for every parsed document, `cJSON_GetObjectItem` returns the FIRST
child whose name matches the requested key — so for an object parsed from
input with duplicate keys (whose children sit in input order, all
occurrences kept), the value of the first occurrence is returned. -/
theorem c5_object_lookup_first_match :
    ∀ (s : List Nat) (root : CJson.Node) (nm : List Nat),
      CJson.cJSON_Parse s = some root →
      CJson.cJSON_GetObjectItem root nm
        = root.children.toList.find? (fun c => c.name == some nm) := by
  intro s root nm _
  unfold CJson.cJSON_GetObjectItem
  exact getObjectItemLoop_eq_find root.children nm

/-- C5 witness: `{"a":1,"a":2}` parses to an object with both members in
input order, and looking up `a` returns the first one (value 1). -/
theorem c5_object_lookup_first_match_witness :
    CJson.cJSON_GetObjectItem dupRoot (strBytes "a")
      = dupRoot.children.toList.find? (fun c => c.name == some (strBytes "a"))
    ∧ CJson.cJSON_GetObjectItem dupRoot (strBytes "a") = some dupNode1
    ∧ dupNode1.valueint = 1 :=
  ⟨c5_object_lookup_first_match (strBytes "\x7b\"a\":1,\"a\":2\x7d") dupRoot
      (strBytes "a") rfl,
   rfl, rfl⟩

/-- C6 counterexample: the C serializer prints a NaN number node as `nan`
(via `%.15g`, since `valuedouble == (double)valueint` is false for NaN and
the C code has no finiteness check), not as the claimed `null`. -/
theorem c6_c_serializer_prints_nan :
    CJson.print_value (CJson.cJSON_CreateNumber FDouble.nan) = some (strBytes "nan")
    ∧ strBytes "nan" ≠ strBytes "null" :=
  ⟨rfl, by decide⟩

/-- C6 amended: the C++ serializer emits `null` for every non-finite
number; the C serializer instead emits the `%g` rendering of the value
(`nan`, `inf` or `-inf`), which is never `null`. -/
theorem c6_nonfinite_amended :
    ∀ d : FDouble, d.isFinite = false →
      Nlohmann.dump (.num d) = strBytes "null"
      ∧ CJson.print_value (CJson.cJSON_CreateNumber d) = some (g15 d)
      ∧ g15 d ≠ strBytes "null" := by
  intro d h
  cases d with
  | finite n den => simp [FDouble.isFinite] at h
  | nan => exact ⟨rfl, rfl, by decide⟩
  | posInf => exact ⟨rfl, rfl, by decide⟩
  | negInf => exact ⟨rfl, rfl, by decide⟩

/-- C6 amended, witness at NaN. -/
theorem c6_nonfinite_amended_witness :
    Nlohmann.dump (.num FDouble.nan) = strBytes "null"
    ∧ CJson.print_value (CJson.cJSON_CreateNumber FDouble.nan)
        = some (g15 FDouble.nan)
    ∧ g15 FDouble.nan ≠ strBytes "null" :=
  c6_nonfinite_amended FDouble.nan rfl

/-- C7 counterexample: the C parser ACCEPTS `1.` — a number token with a
decimal point not followed by a digit — as the Number 1, because
`parse_number` delegates to `strtod`, whose grammar allows a trailing
decimal point.  The claim says every such input must fail to parse. -/
theorem c7_c_parser_accepts_trailing_point :
    CJson.cJSON_Parse (strBytes "1.") = some numNode1 :=
  rfl

/-- C7 amended: the C++ parser enforces the stated grammar (`1.`, `1e`,
`2.5E-` and leading `+` are all rejected).  The C parser rejects a leading
`+` (dispatch) and rejects `1e` and `2.5E-` only through the
trailing-garbage check, but accepts `1.` as the number 1 via `strtod`. -/
theorem c7_number_grammar_amended :
    Nlohmann.parse (strBytes "1.") = none
    ∧ Nlohmann.parse (strBytes "1e") = none
    ∧ Nlohmann.parse (strBytes "2.5E-") = none
    ∧ Nlohmann.parse (strBytes "+1") = none
    ∧ CJson.cJSON_Parse (strBytes "+1") = none
    ∧ CJson.cJSON_Parse (strBytes "1e") = none
    ∧ CJson.cJSON_Parse (strBytes "2.5E-") = none
    ∧ CJson.cJSON_Parse (strBytes "1.") = some numNode1 :=
  ⟨rfl, rfl, rfl, rfl, rfl, rfl, rfl, rfl⟩

/-- C9 counterexample: both scanners skip bytes outside the claimed
whitespace set {space, tab, CR, LF}: the C `skip` accepts EVERY byte `≤ 32`
(here byte 0x01 before a number), and the C++ `skip_ws` accepts the
`isspace` set (here vertical tab 0x0B), so inputs the claim says must fail
parse successfully. -/
theorem c9_whitespace_beyond_spec_set :
    CJson.skip (1 :: strBytes "1") = strBytes "1"
    ∧ CJson.cJSON_Parse (1 :: strBytes "1") = some numNode1
    ∧ Nlohmann.parse (11 :: strBytes "1") = some (.num (.finite 1 1))
    ∧ (1 ∉ specWhitespace) ∧ (11 ∉ specWhitespace) :=
  ⟨rfl, rfl, rfl, by decide, by decide⟩

/-- C9 amended: the byte set skipped between tokens is: every byte in
1..32 in the C implementation, and exactly the C-locale `isspace` set
{space, \t, \n, \v, \f, \r} in the C++ implementation — both strict
supersets of the specified set {space, tab, CR, LF}. -/
theorem c9_whitespace_amended :
    (∀ (b : Nat) (r : List Nat), b ≠ 0 → b ≤ 32 → CJson.skip (b :: r) = CJson.skip r)
    ∧ (∀ (b : Nat) (r : List Nat), 32 < b → CJson.skip (b :: r) = b :: r)
    ∧ (∀ (b : Nat) (r : List Nat), isspaceB b = true →
        Nlohmann.skip_ws (b :: r) = Nlohmann.skip_ws r)
    ∧ (∀ (b : Nat) (r : List Nat), isspaceB b = false →
        Nlohmann.skip_ws (b :: r) = b :: r)
    ∧ (∀ b : Nat, isspaceB b = true ↔
        b = 32 ∨ b = 9 ∨ b = 10 ∨ b = 11 ∨ b = 12 ∨ b = 13) := by
  refine ⟨?_, ?_, ?_, ?_, ?_⟩
  · intro b r _ h
    simp [CJson.skip, List.dropWhile_cons, h]
  · intro b r h
    have hb : ¬ (b ≤ 32) := by omega
    simp [CJson.skip, List.dropWhile_cons, hb]
  · intro b r h
    simp [Nlohmann.skip_ws, List.dropWhile_cons, h]
  · intro b r h
    simp [Nlohmann.skip_ws, List.dropWhile_cons, h]
  · intro b
    simp [isspaceB, Bool.or_eq_true, beq_iff_eq, or_assoc]

/-- C9 amended, witness: byte 0x01 is skipped by the C scanner, byte 0x0B
by the C++ scanner; byte `A` (0x41) is skipped by neither. -/
theorem c9_whitespace_amended_witness :
    CJson.skip (1 :: strBytes "1") = CJson.skip (strBytes "1")
    ∧ CJson.skip (65 :: []) = 65 :: []
    ∧ Nlohmann.skip_ws (11 :: strBytes "1") = Nlohmann.skip_ws (strBytes "1")
    ∧ Nlohmann.skip_ws (65 :: []) = 65 :: []
    ∧ (isspaceB 11 = true ↔
        (11 : Nat) = 32 ∨ (11 : Nat) = 9 ∨ (11 : Nat) = 10 ∨ (11 : Nat) = 11
          ∨ (11 : Nat) = 12 ∨ (11 : Nat) = 13) :=
  ⟨c9_whitespace_amended.1 1 (strBytes "1") (by decide) (by decide),
   c9_whitespace_amended.2.1 65 [] (by decide),
   c9_whitespace_amended.2.2.1 11 (strBytes "1") rfl,
   c9_whitespace_amended.2.2.2.1 65 [] rfl,
   c9_whitespace_amended.2.2.2.2 11⟩

/-- C10: `cJSON_GetArrayItem` on a non-empty array returns the FIRST
element for every negative index (the `index > 0` loop guard never fires),
returns NULL for every index at or beyond the length, and returns NULL on
an empty array for every index. -/
theorem c10_get_array_item_bounds :
    ∀ (a : CJson.Node) (n : Int),
      (n < 0 → a.children ≠ .nil → CJson.cJSON_GetArrayItem a n = a.children.head?)
      ∧ ((a.children.length : Int) ≤ n → CJson.cJSON_GetArrayItem a n = none)
      ∧ (a.children = .nil → CJson.cJSON_GetArrayItem a n = none) := by
  intro a n
  refine ⟨?_, ?_, ?_⟩
  · intro hn hne
    cases h : a.children with
    | nil => exact absurd h hne
    | cons c cs =>
      have h0 : ¬ (0 < n) := by omega
      simp [CJson.cJSON_GetArrayItem, h, CJson.getArrayItemLoop, h0,
        CJson.NodeList.head?]
  · intro h
    unfold CJson.cJSON_GetArrayItem
    exact getArrayItemLoop_oob a.children n h
  · intro h
    simp [CJson.cJSON_GetArrayItem, h, CJson.getArrayItemLoop]

/-- C10 witness: on a one-element array, index -1 yields the first element,
index 5 yields NULL; on an empty array, index 0 yields NULL. -/
theorem c10_get_array_item_bounds_witness :
    CJson.cJSON_GetArrayItem c10Arr (-1) = c10Arr.children.head?
    ∧ CJson.cJSON_GetArrayItem c10Arr 5 = none
    ∧ CJson.cJSON_GetArrayItem CJson.cJSON_CreateArray 0 = none :=
  ⟨(c10_get_array_item_bounds c10Arr (-1)).1 (by decide)
      (by intro h; simp [c10Arr, CJson.Node.children] at h),
   (c10_get_array_item_bounds c10Arr 5).2.1 (by decide),
   (c10_get_array_item_bounds CJson.cJSON_CreateArray 0).2.2 rfl⟩

/-- C8: in both implementations, a `\uXXXX` escape with four
case-insensitive hex digits decodes to the UTF-8 encoding of the BMP code
point (1 byte for code points ≤ 0x7F, 2 bytes ≤ 0x7FF, else 3 bytes);
a non-hex byte in the escape, or a closing quote arriving before four hex
digits were read, makes the whole string parse fail. -/
theorem c8_unicode_escape_decoding :
    ∀ (c1 c2 c3 c4 v1 v2 v3 v4 : Nat) (rest : List Nat),
      hexVal c1 = some v1 → hexVal c2 = some v2 →
      hexVal c3 = some v3 → hexVal c4 = some v4 →
      (CJson.parse_string (34 :: 92 :: 117 :: c1 :: c2 :: c3 :: c4 :: 34 :: rest)
         = some (utf8Encode (((v1 * 16 + v2) * 16 + v3) * 16 + v4), rest))
      ∧ (Nlohmann.parse_string (34 :: 92 :: 117 :: c1 :: c2 :: c3 :: c4 :: 34 :: rest)
         = some (utf8Encode (((v1 * 16 + v2) * 16 + v3) * 16 + v4), rest))
      ∧ ((utf8Encode (((v1 * 16 + v2) * 16 + v3) * 16 + v4)).length
          = if ((v1 * 16 + v2) * 16 + v3) * 16 + v4 ≤ 127 then 1
            else if ((v1 * 16 + v2) * 16 + v3) * 16 + v4 ≤ 2047 then 2 else 3)
      ∧ (∀ (d : Nat) (r : List Nat), hexVal d = none →
           CJson.parse_string (34 :: 92 :: 117 :: d :: r) = none)
      ∧ (∀ (d : Nat) (r : List Nat), hexVal d = none →
           Nlohmann.parse_string (34 :: 92 :: 117 :: d :: r) = none)
      ∧ CJson.parse_string [34, 92, 117, c1, c2, c3, 34] = none
      ∧ Nlohmann.parse_string [34, 92, 117, c1, c2, c3, 34] = none := by
  intro c1 c2 c3 c4 v1 v2 v3 v4 rest h1 h2 h3 h4
  refine ⟨?_, ?_, ?_, ?_, ?_, ?_, ?_⟩
  · simp [CJson.parse_string, CJson.parseStringBody, h1, h2, h3, h4]
  · simp [Nlohmann.parse_string, Nlohmann.parseStringBody, h1, h2, h3, h4]
  · simp only [utf8Encode]
    split_ifs <;> simp
  · intro d r hd
    rcases r with _ | ⟨x1, _ | ⟨x2, _ | ⟨x3, r3⟩⟩⟩ <;>
      simp [CJson.parse_string, CJson.parseStringBody, hd]
  · intro d r hd
    rcases r with _ | ⟨x1, _ | ⟨x2, _ | ⟨x3, r3⟩⟩⟩ <;>
      simp [Nlohmann.parse_string, Nlohmann.parseStringBody, hd]
  · simp only [CJson.parse_string, CJson.parseStringBody, h1, h2, h3]
    rfl
  · simp only [Nlohmann.parse_string, Nlohmann.parseStringBody, h1, h2, h3]
    rfl

/-- C8 witness: `"П"` (lowercase f accepted) decodes to the two-byte
UTF-8 sequence D0 9F in both implementations. -/
theorem c8_unicode_escape_decoding_witness :
    CJson.parse_string [34, 92, 117, 48, 52, 49, 102, 34] = some ([208, 159], [])
    ∧ Nlohmann.parse_string [34, 92, 117, 48, 52, 49, 102, 34]
        = some ([208, 159], []) := by
  have h := c8_unicode_escape_decoding 48 52 49 102 0 4 1 15 [] rfl rfl rfl rfl
  exact ⟨h.1.trans (by decide), h.2.1.trans (by decide)⟩
